import Mathlib

/-!
Verification development for the carcosa git layer (pkg/carcosa/git.go).

The Go code is shallowly embedded: Go strings become Lean `String` (reasoned
about through their `List Char` contents), byte slices become `List Nat`,
errors built with karma.Format become the inductive `GoError` (a message, the
format arguments, and the wrapped cause), and the external go-git / fslock /
OS effects are made explicit: the reference set, the object store, the remote
configuration, the filesystem lock file and the OS advisory-lock table are
explicit state, and the network outcome of a fetch or push is an oracle
parameter the function matches on exactly as the Go switch does.
-/

namespace Carcosa

/-- An error value as produced by karma.Format: either a plain underlying
error message, or a formatted context message with its arguments wrapping a
cause, mirroring `karma.Format(err, "….%q…", args…)`. -/
inductive GoError where
  | base (msg : String)
  | format (msg : String) (args : List String) (cause : GoError)
deriving DecidableEq, Repr

/-- Whether `s` occurs verbatim among the format arguments anywhere in the
error chain (the data karma interpolates into the context messages). -/
def GoError.hasArg (s : String) : GoError → Bool
  | .base _ => false
  | .format _ args cause => args.contains s || cause.hasArg s

/-- Whether the character list `needle` occurs contiguously inside `hay`. -/
def isInfixChars (needle : List Char) : List Char → Bool
  | [] => needle.isEmpty
  | c :: rest => needle.isPrefixOf (c :: rest) || isInfixChars needle rest

/-- Whether the string `s` occurs as a substring anywhere in the error: in a
context message, in a format argument, or in the underlying cause. -/
def GoError.mentionsStr (s : String) : GoError → Bool
  | .base m => isInfixChars s.data m.data
  | .format m args cause =>
      isInfixChars s.data m.data
        || args.any (fun a => isInfixChars s.data a.data)
        || cause.mentionsStr s

/-- A git reference as used by git.go: a name and a target hash, both
strings (`ref{name, hash}`). -/
structure Ref where
  name : String
  hash : String
deriving DecidableEq, Repr

/-- Embeds Go `strings.HasPrefix s ns`: the characters of `ns` are an initial
segment of the characters of `s`. -/
def goHasPfx (s ns : String) : Bool :=
  ns.data.isPrefixOf s.data

/-- Embeds `repo.list` (git.go:164-196): iterate all references and keep
exactly those whose name passes `strings.HasPrefix(ref.name, ns)`; the
iteration order of the storer is the order of the state list. -/
def list (ns : String) (rs : List Ref) : List Ref :=
  rs.filter (fun r => goHasPfx r.name ns)

/-- Stated from the spec's words, for comparison with `list`: `ns` is a
path-segment-aligned prefix of `name` — it is a raw prefix AND the boundary
falls on a path-segment boundary (the remainder is empty or starts with a
separator, or `ns` itself ends with the separator). -/
def segAligned (ns name : String) : Bool :=
  goHasPfx name ns &&
    ((name.data.drop ns.data.length).isEmpty
      || (name.data.drop ns.data.length).head? == some '/'
      || ns.data.getLast? == some '/')

/-- Modelled from the spec: go-git's `Storer.RemoveReference` is outside
src/. Per the spec's contract for the reference store, removal is keyed by
name and fails when no reference of that name exists. -/
def removeReference (rs : List Ref) (name : String) : Except GoError (List Ref) :=
  if rs.any (fun r => r.name == name) then
    .ok (rs.filter (fun r => r.name != name))
  else
    .error (.base "reference not found")

/-- Embeds `repo.delete` (git.go:129-144): call RemoveReference with the
reference's name only, wrapping a failure with the karma context
`unable to delete reference %q`. -/
def delete (rs : List Ref) (r : Ref) : Except GoError (List Ref) :=
  match removeReference rs r.name with
  | .ok rs' => .ok rs'
  | .error e => .error (.format "unable to delete reference %q" [r.name] e)

/-- The object store: digest-keyed blobs, newest write first (go-git keys
each stored object by its digest; a rewrite of the same digest shadows). -/
abbrev ObjectStore := List (String × List Nat)

/-- Modelled from the spec: the content digest computed by go-git's
`SetEncodedObject` (SHA-1 over type tag + bytes) is outside src/; per the
spec it is a deterministic function of the type tag and the content bytes,
treated as an opaque token, which this encoding realises. -/
def digest (data : List Nat) : String :=
  "blob " ++ String.intercalate " " (data.map toString)

/-- Embeds `repo.write` (git.go:146-162): build a blob object from the bytes,
store it under its digest, and return the digest string. -/
def write (store : ObjectStore) (data : List Nat) : ObjectStore × String :=
  ((digest data, data) :: store, digest data)

/-- Embeds `repo.cat` (git.go:278-311): look the blob up by digest and return
its bytes, failing with the `unable to get blob %q` context when absent. -/
def cat (store : ObjectStore) (h : String) : Except GoError (List Nat) :=
  match store.find? (fun e => e.1 == h) with
  | some e => .ok e.2
  | none => .error (.format "unable to get blob %q" [h] (.base "object not found"))

/-- A configured remote as stored in repository metadata: a name and its
URL list (`RemoteConfig{Name, URLs, …}`). -/
structure Remote where
  name : String
  urls : List String
deriving DecidableEq, Repr

/-- The external authentication resolver (`auth.Auth`): maps a URL to an
auth method (`some method`) or fails to resolve (`none`). -/
def Auth : Type := String → Option String

/-- Modelled from the spec: the repository's `refspec` type is defined
outside src/ (git.go only calls its accessors). Per the spec it is a
directional mapping rule scoping one namespace, with a source and a
destination pattern on each side. -/
structure refspec where
  localNS : String
  remoteNS : String
deriving DecidableEq, Repr

/-- The accessor used when fetching: maps remote names into local names. -/
def refspec.to (s : refspec) : String :=
  "+" ++ s.remoteNS ++ "*:" ++ s.localNS ++ "*"

/-- The accessor used when pushing (Go `from()`; `from` is a Lean keyword):
maps local names into remote names. -/
def refspec.from_ (s : refspec) : String :=
  "+" ++ s.localNS ++ "*:" ++ s.remoteNS ++ "*"

/-- Embeds `repo.git.Remote(name)`: look the remote up by name in the
repository's stored remote configuration. -/
def remoteLookup (remotes : List Remote) (name : String) : Option Remote :=
  remotes.find? (fun r => r.name == name)

/-- Embeds `repo.auth` (git.go:198-217): find the remote registered under
`name` (propagating the lookup error as-is), take `remote.Config().URLs[0]`,
and resolve the auth method for that URL (propagating a resolution failure
as-is). The stored remote configuration always carries at least one URL;
`headD ""` stands for the `URLs[0]` index. -/
def repoAuth (remotes : List Remote) (name : String) (a : Auth) :
    Except GoError String :=
  match remoteLookup remotes name with
  | none => .error (.base "remote not found")
  | some rem =>
      match a (rem.urls.headD "") with
      | none => .error (.base "unable to resolve auth method")
      | some method => .ok method

/-- The options git.go passes to `git.Fetch`. -/
structure FetchOptions where
  auth : String
  remoteName : String
  refSpecs : List String
deriving DecidableEq, Repr

/-- Embeds the `git.FetchOptions{…}` literal built in `repo.pull`
(git.go:227-231). -/
def fetchOptions (method name : String) (spec : refspec) : FetchOptions :=
  { auth := method, remoteName := name, refSpecs := [spec.to] }

/-- The options git.go passes to `git.Push`. -/
structure PushOptions where
  auth : String
  remoteName : String
  refSpecs : List String
  prune : Bool
deriving DecidableEq, Repr

/-- Embeds the `git.PushOptions{…}` literal built in `repo.push`
(git.go:257-262), with `Prune: true`. -/
def pushOptions (method name : String) (spec : refspec) : PushOptions :=
  { auth := method, remoteName := name, refSpecs := [spec.from_], prune := true }

/-- The outcome of the underlying `git.Fetch` call, external to git.go: a
normal fetch delivering a new local reference set, the sentinel
`NoErrAlreadyUpToDate`, the sentinel `ErrEmptyRemoteRepository`, or any
other transport or protocol error. -/
inductive FetchOutcome where
  | ok (newRefs : List Ref)
  | alreadyUpToDate
  | emptyRemote
  | err (msg : String)
deriving DecidableEq, Repr

/-- The outcome of the underlying `git.Push` call, external to git.go. -/
inductive PushOutcome where
  | ok
  | alreadyUpToDate
  | err (msg : String)
deriving DecidableEq, Repr

/-- The state a sync call can observe and mutate: the local reference set
and (for push) the remote's reference set. -/
structure SyncState where
  refs : List Ref
  remoteRefs : List Ref
deriving DecidableEq, Repr

/-- Whether a local reference falls in the refspec's push scope (matches the
source side of the `from` mapping). -/
def inLocalScope (s : refspec) (r : Ref) : Bool :=
  goHasPfx r.name s.localNS

/-- Whether a remote reference name falls in the refspec's remote-side
scope (the destination side of the `from` mapping). -/
def inRemoteScope (s : refspec) (name : String) : Bool :=
  goHasPfx name s.remoteNS

/-- The name a local reference maps to on the remote under the refspec's
`from` mapping. -/
def mapToRemote (s : refspec) (name : String) : String :=
  String.mk (s.remoteNS.data ++ name.data.drop s.localNS.data.length)

/-- Modelled from the spec: go-git's `Push` reference-update semantics are
outside src/. Per the spec, a push sends the local references matched by the
refspec's `from` mapping to their mapped remote names, and when pruning is
enabled it also removes every remote reference in scope that no longer has a
local counterpart; without pruning, unmatched remote references in scope are
kept. -/
def gitPushApply (prune : Bool) (s : refspec) (localRefs remoteRefs : List Ref) :
    List Ref :=
  let updated := (localRefs.filter (inLocalScope s)).map
    (fun l => Ref.mk (mapToRemote s l.name) l.hash)
  if prune then
    remoteRefs.filter (fun q => !(inRemoteScope s q.name)) ++ updated
  else
    remoteRefs.filter (fun q => updated.all (fun u => u.name != q.name)) ++ updated

/-- Embeds `repo.pull` (git.go:219-247): resolve auth via `repo.auth`
(returning its error unchanged on failure, before any fetch), then run the
fetch with the options of git.go:227-231 and map its outcome through the Go
switch: `nil`, `NoErrAlreadyUpToDate` and `ErrEmptyRemoteRepository` are
success, anything else is wrapped with `unable to fetch remote %q`. The
network is the oracle `fetch`, a function of the options passed. -/
def pull (st : SyncState) (remotes : List Remote) (name : String)
    (spec : refspec) (a : Auth) (fetch : FetchOptions → FetchOutcome) :
    SyncState × Option GoError :=
  match repoAuth remotes name a with
  | .error e => (st, some e)
  | .ok method =>
      match fetch (fetchOptions method name spec) with
      | .ok newRefs => ({ st with refs := newRefs }, none)
      | .alreadyUpToDate => (st, none)
      | .emptyRemote => (st, none)
      | .err m =>
          (st, some (.format "unable to fetch remote %q" [name] (.base m)))

/-- Embeds `repo.push` (git.go:249-276): resolve auth via `repo.auth`
(returning its error unchanged on failure, before any push), then run the
push with the options of git.go:257-262 (`Prune: true`) and map its outcome
through the Go switch: `nil` and `NoErrAlreadyUpToDate` are success,
anything else is wrapped with `unable to push to remote %q`. On a normal
success the remote's references are updated per `gitPushApply` with the
options' prune flag. -/
def push (st : SyncState) (remotes : List Remote) (name : String)
    (spec : refspec) (a : Auth) (pushRes : PushOptions → PushOutcome) :
    SyncState × Option GoError :=
  match repoAuth remotes name a with
  | .error e => (st, some e)
  | .ok method =>
      match pushRes (pushOptions method name spec) with
      | .ok =>
          ({ st with
              remoteRefs :=
                gitPushApply (pushOptions method name spec).prune spec
                  st.refs st.remoteRefs },
            none)
      | .alreadyUpToDate => (st, none)
      | .err m =>
          (st, some (.format "unable to push to remote %q" [name] (.base m)))

/-- Embeds Go `filepath.Join` on the well-formed (separator-free-boundary)
paths git.go joins. -/
def joinPath (a b : String) : String :=
  a ++ "/" ++ b

/-- The `mutex` field of the repo handle: the lock-file path and the fslock
handle (identified by the path it was created for; `none` before
`fslock.New` has run). -/
structure Mutex where
  path : String
  handle : Option String
deriving DecidableEq, Repr

/-- The repo handle as far as locking observes it: its path, whether the
git config says `core.bare`, and the mutex field. -/
structure RepoHandle where
  path : String
  bare : Bool
  mutex : Mutex
deriving DecidableEq, Repr

/-- The OS state the lock manager touches: which lock files exist on disk,
and which paths currently carry a live OS-level advisory lock. -/
structure OsState where
  files : List String
  held : List String
deriving DecidableEq, Repr

/-- The lock-file path `repo.lock` computes (git.go:322-326): at the storage
root for a bare repository, inside `.git` otherwise. -/
def lockPath (r : RepoHandle) : String :=
  if r.bare then joinPath r.path "carcosa.lock"
  else joinPath (joinPath r.path ".git") "carcosa.lock"

/-- Embeds `repo.lock` (git.go:313-342): compute the lock-file path from the
config's bare flag, store it and a fresh fslock handle into `repo.mutex`,
then `TryLock`. fslock's `TryLock` is non-blocking: it creates the lock file
and takes the OS lock, or fails at once with `ErrLocked` when the path is
already held, in which case git.go wraps the error with
`unable to obtain exclusive lock %q`. -/
def lock (r : RepoHandle) (os : OsState) :
    (RepoHandle × OsState) × Option GoError :=
  let mpath := lockPath r
  let r1 : RepoHandle := { r with mutex := { path := mpath, handle := some mpath } }
  if mpath ∈ os.held then
    ((r1, os),
      some (.format "unable to obtain exclusive lock %q" [mpath]
        (.base "fslock: lock is held")))
  else
    ((r1,
        { files := if mpath ∈ os.files then os.files else mpath :: os.files,
          held := mpath :: os.held }),
      none)

/-- Embeds `repo.unlock` (git.go:344-364): `os.Remove` the lock file first
(failing with `unable to remove lock file %q` when it is already gone), and
only then release the OS-level lock through the fslock handle (failing with
`unable to release exclusive repository lock %q` when the release fails,
modelled as the path not being held). -/
def unlock (r : RepoHandle) (os : OsState) : OsState × Option GoError :=
  if r.mutex.path ∈ os.files then
    let os1 : OsState := { os with files := os.files.erase r.mutex.path }
    if r.mutex.path ∈ os1.held then
      ({ os1 with held := os1.held.erase r.mutex.path }, none)
    else
      (os1,
        some (.format "unable to release exclusive repository lock %q"
          [r.mutex.path] (.base "fslock: unlock failed")))
  else
    (os,
      some (.format "unable to remove lock file %q" [r.mutex.path]
        (.base "no such file or directory")))

/-! Claim theorems. -/

/-- C5: for every byte sequence `b`, a successful `write b` returns a digest
at which `cat`, run on the resulting store before any external garbage
collection, succeeds and returns exactly `b`. -/
theorem write_cat_roundtrip (store : ObjectStore) (b : List Nat) :
    cat (write store b).1 (write store b).2 = .ok b := by
  simp [write, cat, List.find?]

/-- C1 (counterexample): `list` matches on a raw string prefix, not a
path-segment-aligned one — with references `refs/a/1` and `refs/ab/1`, the
namespace `refs/a` (no trailing separator) selects `refs/ab/1` even though
`refs/a` is not a segment-aligned prefix of its name. -/
theorem list_matches_raw_string_pfx :
    Ref.mk "refs/ab/1" "h2" ∈
        list "refs/a" [Ref.mk "refs/a/1" "h1", Ref.mk "refs/ab/1" "h2"] ∧
      segAligned "refs/a" "refs/ab/1" = false := by
  decide

/-- C1 (amended): `list ns` returns exactly the references whose name has
`ns` as a raw string prefix (Go `strings.HasPrefix`); when `ns` ends with
the separator `/` — as in the spec's own example — this coincides with
path-segment-aligned matching. -/
theorem list_raw_pfx_filtering (ns : String) (rs : List Ref) (r : Ref) :
    (r ∈ list ns rs ↔ r ∈ rs ∧ goHasPfx r.name ns = true) ∧
    (ns.data.getLast? = some '/' →
      (r ∈ list ns rs ↔ r ∈ rs ∧ segAligned ns r.name = true)) := by
  refine ⟨by simp [list, List.mem_filter], fun h => ?_⟩
  simp [list, List.mem_filter, segAligned, h]

/-- C1 (witness): on the spec's example set, `list "refs/a/"` does return
`refs/a/1`, a segment-aligned member. -/
theorem list_raw_pfx_filtering_witness :
    "refs/a/".data.getLast? = some '/' ∧
      Ref.mk "refs/a/1" "h1" ∈
        list "refs/a/" [Ref.mk "refs/a/1" "h1", Ref.mk "refs/ab/1" "h2"] :=
  ⟨by decide,
    ((list_raw_pfx_filtering "refs/a/"
        [Ref.mk "refs/a/1" "h1", Ref.mk "refs/ab/1" "h2"]
        (Ref.mk "refs/a/1" "h1")).2 (by decide)).mpr (by decide)⟩

/-- C9: `delete` matches solely on the reference's name (two arguments
sharing a name behave identically, whatever their targets), and when no
reference of that name exists it fails with the reference-not-found error
wrapped in the `unable to delete reference %q` context. -/
theorem delete_by_name_only (rs : List Ref) (r r' : Ref) :
    (r.name = r'.name → delete rs r = delete rs r') ∧
    (rs.all (fun q => q.name != r.name) = true →
      delete rs r =
        .error (.format "unable to delete reference %q" [r.name]
          (.base "reference not found"))) := by
  constructor
  · intro h
    simp [delete, h]
  · intro h
    have hall : ∀ q ∈ rs, ¬(q.name = r.name) := by
      intro q hq
      simpa using List.all_eq_true.mp h q hq
    have hany : rs.any (fun q => q.name == r.name) = false := by
      simpa [List.any_eq_true] using fun q hq => hall q hq
    simp [delete, removeReference, hany]

/-- C9 (witness): deleting the absent name `refs/y` from a store holding
only `refs/x` fails with the not-found error, independently of the target
hash carried by the argument. -/
theorem delete_by_name_only_witness :
    [Ref.mk "refs/x" "h0"].all
        (fun q => q.name != (Ref.mk "refs/y" "aaa").name) = true ∧
      delete [Ref.mk "refs/x" "h0"] (Ref.mk "refs/y" "aaa") =
        .error (.format "unable to delete reference %q" ["refs/y"]
          (.base "reference not found")) :=
  ⟨by decide,
    (delete_by_name_only [Ref.mk "refs/x" "h0"] (Ref.mk "refs/y" "aaa")
        (Ref.mk "refs/y" "bbb")).2 (by decide)⟩

/-- Helper for C3: with pruning enabled, a remote reference in the refspec's
remote-side scope to which no in-scope local reference maps is absent from
the pushed reference set. -/
theorem gitPushApply_prune_removes (s : refspec) (localRefs remoteRefs : List Ref)
    (q : Ref) (hq : inRemoteScope s q.name = true)
    (hno : ∀ l ∈ localRefs, inLocalScope s l = true →
      mapToRemote s l.name ≠ q.name) :
    q ∉ gitPushApply true s localRefs remoteRefs := by
  intro hmem
  have hmem' : q ∈ remoteRefs.filter (fun q => !(inRemoteScope s q.name)) ++
      (localRefs.filter (inLocalScope s)).map
        (fun l => Ref.mk (mapToRemote s l.name) l.hash) := hmem
  rcases List.mem_append.mp hmem' with h1 | h2
  · have hf := (List.mem_filter.mp h1).2
    rw [hq] at hf
    exact absurd hf (by simp)
  · obtain ⟨l, hl, hql⟩ := List.mem_map.mp h2
    obtain ⟨hlmem, hls⟩ := List.mem_filter.mp hl
    exact hno l hlmem hls (congrArg Ref.name hql)

/-- C2 (counterexample): a failing fetch is wrapped only with
`unable to fetch remote %q` and the remote name — the refspec string occurs
nowhere in the returned error, so the error does not carry the refspec. -/
theorem pull_error_lacks_refspec :
    ((pull (SyncState.mk [] []) [Remote.mk "origin" ["git@example.com:r.git"]]
          "origin" (refspec.mk "refs/tokens/" "refs/tokens/")
          (fun _ => some "ssh-agent")
          (fun _ => FetchOutcome.err "connection refused")).2.map
        (fun e =>
          e.mentionsStr (refspec.to (refspec.mk "refs/tokens/" "refs/tokens/")))) =
        some false ∧
      ((pull (SyncState.mk [] []) [Remote.mk "origin" ["git@example.com:r.git"]]
          "origin" (refspec.mk "refs/tokens/" "refs/tokens/")
          (fun _ => some "ssh-agent")
          (fun _ => FetchOutcome.err "connection refused")).2.map
        (fun e => e.hasArg "origin")) = some true := by
  decide

/-- C2 (amended): once auth is resolved, exactly three fetch outcomes map to
success — a normal fetch, `NoErrAlreadyUpToDate`, and
`ErrEmptyRemoteRepository` — and every other failure is returned as an error
carrying the remote name (but not the refspec) around the cause. -/
theorem pull_outcome_mapping (st : SyncState) (remotes : List Remote)
    (name : String) (spec : refspec) (a : Auth)
    (fetch : FetchOptions → FetchOutcome) (method : String)
    (hauth : repoAuth remotes name a = .ok method) :
    (∀ newRefs, fetch (fetchOptions method name spec) = .ok newRefs →
        pull st remotes name spec a fetch = ({ st with refs := newRefs }, none)) ∧
    (fetch (fetchOptions method name spec) = .alreadyUpToDate →
        pull st remotes name spec a fetch = (st, none)) ∧
    (fetch (fetchOptions method name spec) = .emptyRemote →
        pull st remotes name spec a fetch = (st, none)) ∧
    (∀ m, fetch (fetchOptions method name spec) = .err m →
        pull st remotes name spec a fetch =
          (st, some (.format "unable to fetch remote %q" [name] (.base m))) ∧
        (GoError.format "unable to fetch remote %q" [name]
            (.base m)).hasArg name = true) := by
  refine ⟨fun newRefs h => ?_, fun h => ?_, fun h => ?_, fun m h => ⟨?_, ?_⟩⟩ <;>
    simp [pull, hauth, h, GoError.hasArg]

/-- C2 (witness): against a reachable remote `origin` that is empty, `pull`
succeeds and leaves the state unchanged. -/
theorem pull_outcome_mapping_witness :
    repoAuth [Remote.mk "origin" ["u"]] "origin" (fun _ => some "m") =
        .ok "m" ∧
      pull (SyncState.mk [] []) [Remote.mk "origin" ["u"]] "origin"
          (refspec.mk "refs/x/" "refs/x/") (fun _ => some "m")
          (fun _ => FetchOutcome.emptyRemote) =
        (SyncState.mk [] [], none) :=
  ⟨rfl,
    (pull_outcome_mapping (SyncState.mk [] []) [Remote.mk "origin" ["u"]]
        "origin" (refspec.mk "refs/x/" "refs/x/") (fun _ => some "m")
        (fun _ => FetchOutcome.emptyRemote) "m" rfl).2.2.1 rfl⟩

/-- C3: `push` passes `Prune: true` and the refspec's `from` mapping to the
underlying push, so a successful push leaves the remote scope equal to the
mapped local references — in particular a remote reference in scope with no
local counterpart is removed; `NoErrAlreadyUpToDate` maps to success with no
state change, and any other failure is wrapped with
`unable to push to remote %q`. -/
theorem push_prune_mapping (st : SyncState) (remotes : List Remote)
    (name : String) (spec : refspec) (a : Auth)
    (pushRes : PushOptions → PushOutcome) (method : String)
    (hauth : repoAuth remotes name a = .ok method) :
    ((pushOptions method name spec).prune = true ∧
      (pushOptions method name spec).refSpecs = [spec.from_]) ∧
    (pushRes (pushOptions method name spec) = .ok →
        (push st remotes name spec a pushRes).2 = none ∧
        (push st remotes name spec a pushRes).1.refs = st.refs ∧
        (push st remotes name spec a pushRes).1.remoteRefs =
          gitPushApply true spec st.refs st.remoteRefs ∧
        ∀ q ∈ st.remoteRefs, inRemoteScope spec q.name = true →
          (∀ l ∈ st.refs, inLocalScope spec l = true →
            mapToRemote spec l.name ≠ q.name) →
          q ∉ (push st remotes name spec a pushRes).1.remoteRefs) ∧
    (pushRes (pushOptions method name spec) = .alreadyUpToDate →
        push st remotes name spec a pushRes = (st, none)) ∧
    (∀ m, pushRes (pushOptions method name spec) = .err m →
        push st remotes name spec a pushRes =
          (st, some (.format "unable to push to remote %q" [name] (.base m)))) := by
  refine ⟨⟨rfl, rfl⟩, fun h => ?_, fun h => ?_, fun m h => ?_⟩
  · have h' : pushRes
        { auth := method, remoteName := name, refSpecs := [spec.from_],
          prune := true } = PushOutcome.ok := h
    refine ⟨by simp [push, hauth, h, h'], by simp [push, hauth, h, h'],
      by simp [push, hauth, h, h', pushOptions], fun q hq hscope hno => ?_⟩
    have hnotin := gitPushApply_prune_removes spec st.refs st.remoteRefs q
      hscope hno
    simpa [push, hauth, h, h', pushOptions] using hnotin
  · simp [push, hauth, h]
  · simp [push, hauth, h]

/-- C3 (witness): with a local scope holding only `refs/x/a`, a successful
push removes the stale remote reference `refs/x/dead` and succeeds. -/
theorem push_prune_mapping_witness :
    repoAuth [Remote.mk "origin" ["u"]] "origin" (fun _ => some "m") =
        .ok "m" ∧
      Ref.mk "refs/x/dead" "h0" ∉
        (push (SyncState.mk [Ref.mk "refs/x/a" "h1"] [Ref.mk "refs/x/dead" "h0"])
            [Remote.mk "origin" ["u"]] "origin" (refspec.mk "refs/x/" "refs/x/")
            (fun _ => some "m") (fun _ => PushOutcome.ok)).1.remoteRefs :=
  ⟨rfl,
    ((push_prune_mapping
          (SyncState.mk [Ref.mk "refs/x/a" "h1"] [Ref.mk "refs/x/dead" "h0"])
          [Remote.mk "origin" ["u"]] "origin" (refspec.mk "refs/x/" "refs/x/")
          (fun _ => some "m") (fun _ => PushOutcome.ok) "m" rfl).2.1
        rfl).2.2.2 (Ref.mk "refs/x/dead" "h0") (by decide) (by decide)
      (by decide)⟩

/-- C4: when auth resolution for the remote fails, both `pull` and `push`
return that resolution error unchanged and leave the reference state exactly
as it was — the fetch/push oracle is never consulted. -/
theorem sync_auth_failure_frame (st : SyncState) (remotes : List Remote)
    (name : String) (spec : refspec) (a : Auth) (e : GoError)
    (fetch : FetchOptions → FetchOutcome) (pushRes : PushOptions → PushOutcome)
    (hauth : repoAuth remotes name a = .error e) :
    pull st remotes name spec a fetch = (st, some e) ∧
    push st remotes name spec a pushRes = (st, some e) := by
  constructor <;> simp [pull, push, hauth]

/-- C4 (witness): an unresolvable URL makes both `pull` and `push` return
the resolver's error with the state untouched. -/
theorem sync_auth_failure_frame_witness :
    repoAuth [Remote.mk "origin" ["u"]] "origin" (fun _ => none) =
        .error (.base "unable to resolve auth method") ∧
      pull (SyncState.mk [Ref.mk "refs/x/a" "h1"] []) [Remote.mk "origin" ["u"]]
          "origin" (refspec.mk "refs/x/" "refs/x/") (fun _ => none)
          (fun _ => FetchOutcome.ok []) =
        (SyncState.mk [Ref.mk "refs/x/a" "h1"] [],
          some (.base "unable to resolve auth method")) :=
  ⟨rfl,
    (sync_auth_failure_frame (SyncState.mk [Ref.mk "refs/x/a" "h1"] [])
        [Remote.mk "origin" ["u"]] "origin" (refspec.mk "refs/x/" "refs/x/")
        (fun _ => none) (.base "unable to resolve auth method")
        (fun _ => FetchOutcome.ok []) (fun _ => PushOutcome.ok) rfl).1⟩

/-- C10: auth is resolved against the first configured URL of the remote
registered under the given name (no caller-supplied URL enters the
signature), and when no remote of that name is registered both `pull` and
`push` fail with the lookup error, before any network activity — the
outcome oracle is irrelevant — and with the state unchanged. -/
theorem auth_first_url_lookup (remotes : List Remote) (name : String)
    (a : Auth) (st : SyncState) (spec : refspec)
    (fetch : FetchOptions → FetchOutcome) (pushRes : PushOptions → PushOutcome) :
    (∀ rem u rest, remoteLookup remotes name = some rem →
        rem.urls = u :: rest →
        repoAuth remotes name a =
          (match a u with
           | none => .error (.base "unable to resolve auth method")
           | some m => .ok m)) ∧
    (remoteLookup remotes name = none →
        pull st remotes name spec a fetch =
            (st, some (.base "remote not found")) ∧
        push st remotes name spec a pushRes =
            (st, some (.base "remote not found")) ∧
        ∀ fetch2 pushRes2,
          pull st remotes name spec a fetch2 =
              pull st remotes name spec a fetch ∧
            push st remotes name spec a pushRes2 =
              push st remotes name spec a pushRes) := by
  constructor
  · intro rem u rest hfind hurls
    simp [repoAuth, hfind, hurls]
  · intro hnone
    have hauth : repoAuth remotes name a = .error (.base "remote not found") := by
      simp [repoAuth, hnone]
    exact ⟨by simp [pull, hauth], by simp [push, hauth],
      fun f2 p2 => ⟨by simp [pull, hauth], by simp [push, hauth]⟩⟩

/-- C10 (witness): with two configured URLs and a resolver distinguishing
them, auth resolves via the first URL only. -/
theorem auth_first_url_lookup_witness :
    remoteLookup [Remote.mk "origin" ["url1", "url2"]] "origin" =
        some (Remote.mk "origin" ["url1", "url2"]) ∧
      repoAuth [Remote.mk "origin" ["url1", "url2"]] "origin"
          (fun url => if url == "url1" then some "m1" else some "m2") =
        .ok "m1" := by
  refine ⟨rfl, ?_⟩
  have h := (auth_first_url_lookup [Remote.mk "origin" ["url1", "url2"]]
      "origin" (fun url => if url == "url1" then some "m1" else some "m2")
      (SyncState.mk [] []) (refspec.mk "a" "b") (fun _ => FetchOutcome.ok [])
      (fun _ => PushOutcome.ok)).1 (Remote.mk "origin" ["url1", "url2"])
    "url1" ["url2"] rfl rfl
  simpa using h

/-- C6: `lock` computes the lock-file path as `<path>/carcosa.lock` for a
bare repository and `<path>/.git/carcosa.lock` otherwise, then try-locks it
without blocking: when another holder holds that path it returns an error at
once leaving the OS lock state untouched, and otherwise it acquires the OS
lock and succeeds. -/
theorem lock_path_and_nonblocking (r : RepoHandle) (os : OsState) :
    ((lock r os).1.1.mutex.path =
        if r.bare then r.path ++ "/" ++ "carcosa.lock"
        else r.path ++ "/" ++ ".git" ++ "/" ++ "carcosa.lock") ∧
    (lockPath r ∈ os.held →
        (lock r os).2.isSome = true ∧ (lock r os).1.2 = os) ∧
    (lockPath r ∉ os.held →
        (lock r os).2 = none ∧ lockPath r ∈ ((lock r os).1.2).held) := by
  refine ⟨?_, fun h => ?_, fun h => ?_⟩
  · simp only [lock, lockPath, joinPath]
    split <;> split <;> rfl
  · simp [lock, h]
  · simp [lock, h]

/-- C6 (witness): on a bare repository at `/repo` with nothing held, the
computed path is `/repo/carcosa.lock` and the non-blocking acquisition
succeeds. -/
theorem lock_path_and_nonblocking_witness :
    lockPath (RepoHandle.mk "/repo" true (Mutex.mk "" none)) ∉
        (OsState.mk [] []).held ∧
      (lock (RepoHandle.mk "/repo" true (Mutex.mk "" none))
          (OsState.mk [] [])).2 = none :=
  ⟨by decide,
    ((lock_path_and_nonblocking (RepoHandle.mk "/repo" true (Mutex.mk "" none))
        (OsState.mk [] [])).2.2 (by decide)).1⟩

/-- C7: `unlock` removes the lock file first and only then releases the OS
lock: when the file is already missing (double-unlock) it errors with the OS
lock left untouched (the release is never attempted), when the file is
present but the OS release fails it errors with the file already removed,
and when both steps apply it succeeds removing the file and releasing the
lock — neither failure is silently swallowed. -/
theorem unlock_order_and_errors (r : RepoHandle) (os : OsState) :
    (r.mutex.path ∉ os.files →
        (unlock r os).2.isSome = true ∧ (unlock r os).1 = os) ∧
    (r.mutex.path ∈ os.files → r.mutex.path ∉ os.held →
        (unlock r os).2.isSome = true ∧
        (unlock r os).1.files = os.files.erase r.mutex.path ∧
        (unlock r os).1.held = os.held) ∧
    (r.mutex.path ∈ os.files → r.mutex.path ∈ os.held →
        (unlock r os).2 = none ∧
        (unlock r os).1.files = os.files.erase r.mutex.path ∧
        (unlock r os).1.held = os.held.erase r.mutex.path) := by
  refine ⟨fun h => ?_, fun hf hh => ?_, fun hf hh => ?_⟩
  · simp [unlock, h]
  · simp [unlock, hf, hh]
  · simp [unlock, hf, hh]

/-- C7 (witness): unlocking when the lock file is already gone
(double-unlock) returns an error and leaves the OS state untouched. -/
theorem unlock_order_and_errors_witness :
    "/repo/carcosa.lock" ∉ (OsState.mk [] []).files ∧
      (unlock (RepoHandle.mk "/repo" true
            (Mutex.mk "/repo/carcosa.lock" (some "/repo/carcosa.lock")))
          (OsState.mk [] [])).2.isSome = true :=
  ⟨by decide,
    ((unlock_order_and_errors
        (RepoHandle.mk "/repo" true
          (Mutex.mk "/repo/carcosa.lock" (some "/repo/carcosa.lock")))
        (OsState.mk [] [])).1 (by decide)).1⟩

/-- C8 (counterexample): a failed `lock()` does mutate the handle's lock
state — with `/repo/carcosa.lock` already held, `lock` on a bare repository
at `/repo` returns an error yet the mutex field no longer equals its prior
value (the path and handle have been overwritten before `TryLock` ran). -/
theorem lock_failure_mutates_mutex :
    (lock (RepoHandle.mk "/repo" true (Mutex.mk "" none))
        (OsState.mk ["/repo/carcosa.lock"] ["/repo/carcosa.lock"])).2.isSome =
        true ∧
      (lock (RepoHandle.mk "/repo" true (Mutex.mk "" none))
          (OsState.mk ["/repo/carcosa.lock"] ["/repo/carcosa.lock"])).1.1.mutex ≠
        Mutex.mk "" none := by
  decide

/-- C8 (amended): a failed `lock()` acquires nothing — the OS lock state is
exactly as before the call — but the handle's mutex path and handle fields
are overwritten with the attempted lock path and a fresh handle for it. -/
theorem lock_failure_frame (r : RepoHandle) (os : OsState)
    (h : (lock r os).2.isSome = true) :
    (lock r os).1.2 = os ∧
    (lock r os).1.1.mutex.path = lockPath r ∧
    (lock r os).1.1.mutex.handle = some (lockPath r) := by
  by_cases hheld : lockPath r ∈ os.held
  · simp [lock, hheld]
  · simp [lock, hheld] at h

/-- C8 (witness): the amended frame property at the concrete failing
acquisition of the counterexample state. -/
theorem lock_failure_frame_witness :
    (lock (RepoHandle.mk "/repo" true (Mutex.mk "" none))
        (OsState.mk ["/repo/carcosa.lock"] ["/repo/carcosa.lock"])).2.isSome =
        true ∧
      (lock (RepoHandle.mk "/repo" true (Mutex.mk "" none))
          (OsState.mk ["/repo/carcosa.lock"] ["/repo/carcosa.lock"])).1.2 =
        OsState.mk ["/repo/carcosa.lock"] ["/repo/carcosa.lock"] :=
  ⟨by decide,
    (lock_failure_frame (RepoHandle.mk "/repo" true (Mutex.mk "" none))
        (OsState.mk ["/repo/carcosa.lock"] ["/repo/carcosa.lock"])
        (by decide)).1⟩

end Carcosa
